import Mathlib

/-!
Verification development for the data model of the uraPointOfSale note-taking
application (src/app/models.py). The Python entities are shallowly embedded:
ORM model classes become Lean structures, datetimes become Nat timestamps,
nullable columns become Option, and Python exceptions become Except.
Persistence (the db object) and the hashing library (werkzeug) are external to
the repository; where a claim depends on them they are modelled from the spec,
as noted in the doc comment of each such definition.
-/

namespace App

/-- Error classes that the embedded operations can raise.
valueError models the Python ValueError raised by int() on a malformed
string (the specification calls this class ValueParsing);
noneTypeError models the exception raised when check_password_hash
receives a null stored hash (the specification calls this DataCorruption);
uniquenessViolation models the integrity error surfaced by the persistence
boundary for a duplicate unique or primary key column. -/
inductive PyError where
  | valueError
  | noneTypeError
  | uniquenessViolation
deriving Repr, DecidableEq

/-- Numeric value of a decimal digit character. -/
def digitVal (c : Char) : Nat := c.toNat - 48

/-- Accumulate a list of decimal digit characters into a Nat, most
significant digit first, as Python int() does. -/
def digitsToNat (l : List Char) : Nat :=
  l.foldl (fun a c => a * 10 + digitVal c) 0

/-- Strip leading and trailing whitespace from a character list, as Python
int() does to its string argument before parsing. -/
def pyStrip (l : List Char) : List Char :=
  ((l.dropWhile Char.isWhitespace).reverse.dropWhile Char.isWhitespace).reverse

/-- Embedding of the Python builtin int() applied to a string: surrounding
whitespace is stripped, an optional single plus or minus sign is accepted,
and the remainder must be one or more decimal digits. (Underscore digit
separators, accepted by Python 3.6+, are not modelled; no claim involves
them.) Returns none exactly when Python int() raises ValueError. -/
def pyInt (s : String) : Option Int :=
  match pyStrip s.data with
  | [] => none
  | c :: cs =>
    let core : List Char := if c = '-' || c = '+' then cs else c :: cs
    if core ≠ [] ∧ core.all Char.isDigit then
      if c = '-' then some (-(digitsToNat core : Int))
      else some (digitsToNat core : Int)
    else none

/-- Modelled from the spec: the stored output of the Password Hashing Service
(werkzeug generate_password_hash, an external library). The real library
stores a string method$salt$digest; the model keeps the salt and the digest
as the two informative fields. -/
structure PasswordHash where
  salt : Nat
  digest : Nat
deriving Repr, DecidableEq

/-- Base for the positional encoding of characters: one more than the largest
possible Char.toNat (0x10FFFF), plus one so every digit is nonzero. -/
def charBase : Nat := 1114113

/-- Injective encoding of a character list into a Nat: little-endian
positional encoding with digit c.toNat + 1 in base charBase. -/
def encodeChars : List Char → Nat
  | [] => 0
  | c :: cs => (c.toNat + 1) + charBase * encodeChars cs

/-- Injective encoding of a string into a Nat, used as the ideal
collision-free digest core of the modelled hash. -/
def stringEncode (s : String) : Nat := encodeChars s.data

/-- Modelled from the spec: werkzeug generate_password_hash derives a salted
hash of the plaintext. The salt, drawn from the library RNG at each call, is
passed explicitly; the digest is an ideal (collision-free) keyed hash of the
plaintext, modelled by an injective arithmetic encoding. -/
def generate_password_hash (salt : Nat) (password : String) : PasswordHash :=
  ⟨salt, (salt + 1) * (stringEncode password + 1)⟩

/-- Modelled from the spec: werkzeug check_password_hash recomputes the digest
of the candidate plaintext under the stored salt and compares. On a null
stored hash the real library fails attempting to parse it (NoneType has no
split attribute), which the spec classes as a DataCorruption error. -/
def check_password_hash (pwhash : Option PasswordHash) (password : String) :
    Except PyError Bool :=
  match pwhash with
  | none => .error .noneTypeError
  | some h => .ok (h.digest == (generate_password_hash h.salt password).digest)

/-- Embedding of the User model (models.py lines 19-75): integer primary key,
unique-indexed username and email, creation timestamp, nullable password
hash, country and time zone with defaults. -/
structure User where
  id : Nat
  username : String
  email : String
  creation_date : Nat
  password_hash : Option PasswordHash
  country : String
  time_zone : String
deriving Repr, DecidableEq

/-- Construction of a User on registration: password_hash starts null and
country and time_zone take the declared column defaults. -/
def User.create (id : Nat) (username email : String) (now : Nat) : User :=
  { id := id, username := username, email := email, creation_date := now,
    password_hash := none, country := "United States",
    time_zone := "America/New_York" }

/-- Embedding of User.set_password (models.py lines 55-62): stores the salted
hash of the plaintext, overwriting any existing hash. The salt argument
stands for the fresh random salt the hashing library draws on each call. -/
def User.set_password (self : User) (salt : Nat) (password : String) : User :=
  { self with password_hash := some (generate_password_hash salt password) }

/-- Embedding of User.check_password (models.py lines 64-75): delegates to
check_password_hash on the stored hash. -/
def User.check_password (self : User) (password : String) : Except PyError Bool :=
  check_password_hash self.password_hash password

/-- Embedding of the repr of a User (models.py lines 44-53):
the format call produces an angle-bracketed debug label. -/
def User.repr (self : User) : String := "<User: " ++ self.username ++ ">"

/-- Modelled from the spec: the persistence boundary get(User, pk) operation
(User.query.get). The persisted table is an insertion-ordered list of rows;
get resolves a primary key to the row carrying it, or none. -/
def queryGetUser (db : List User) (pk : Int) : Option User :=
  db.find? (fun u => (u.id : Int) == pk)

/-- Embedding of load_user (models.py lines 7-17): converts the string id
with int() and resolves it with User.query.get. The int() call is not
guarded, so its ValueError escapes load_user, which the Except embedding
renders as an error result. -/
def load_user (db : List User) (id : String) : Except PyError (Option User) :=
  match pyInt id with
  | none => .error .valueError
  | some n => .ok (queryGetUser db n)

/-- Embedding of the Tag model (models.py lines 77-100): integer primary key
and an indexed, not necessarily unique, label. -/
structure Tag where
  id : Nat
  tag : String
deriving Repr, DecidableEq

/-- Embedding of the repr of a Tag (models.py lines 91-100). -/
def Tag.repr (self : Tag) : String := "<Tag: " ++ self.tag ++ ">"

/-- Embedding of the Note model (models.py lines 102-137): integer primary
key, foreign key to the owning user, title, body, creation and last-edited
timestamps, nullable reminder timestamp and the already-reminded flag. -/
structure Note where
  id : Nat
  user_id : Nat
  title : String
  note : String
  note_date : Nat
  last_edited : Nat
  reminder_date : Option Nat
  already_reminded : Bool
deriving Repr, DecidableEq

/-- Construction of a Note on submission: note_date and last_edited take
their declared default, the current UTC time at creation; reminder_date
starts null and already_reminded starts false. -/
def Note.create (id user_id : Nat) (title body : String) (now : Nat) : Note :=
  { id := id, user_id := user_id, title := title, note := body,
    note_date := now, last_edited := now, reminder_date := none,
    already_reminded := false }

/-- Modelled from the spec: the edit operation lives in the out-of-scope view
layer; per the spec it updates title and body and must refresh last_edited to
the current UTC time. -/
def Note.edit (self : Note) (title body : String) (now : Nat) : Note :=
  { self with title := title, note := body, last_edited := now }

/-- Embedding of the repr of a Note (models.py lines 128-137): formats the
note body into an angle-bracketed debug label. -/
def Note.reprN (self : Note) : String := "<Note: " ++ self.note ++ ">"

/-- Embedding of the NoteTags association model (models.py lines 139-153):
composite primary key of note_id and tag_id. -/
structure NoteTags where
  note_id : Nat
  tag_id : Nat
deriving Repr, DecidableEq

/-- Loading strategies a relationship declaration can select. -/
inductive LazyStrategy where
  | select
  | joined
  | subquery
  | dynamic
deriving Repr, DecidableEq

/-- Shape of an ORM relationship declaration as written in the source. -/
structure RelationshipDecl where
  target : String
  backref : Option String
  lazy : LazyStrategy
deriving Repr, DecidableEq

/-- Embedding of the user_notes relationship declaration (models.py line 42):
db.relationship to Note with backref author and the dynamic (query-valued,
lazily materialized) loading strategy. -/
def user_notes_decl : RelationshipDecl :=
  { target := "Note", backref := some "author", lazy := LazyStrategy.dynamic }

/-- Modelled from the spec: the query the dynamic user_notes relationship
materializes, over the persistence boundary modelled as an insertion-ordered
list of Note rows: the notes whose foreign key is this user. -/
def user_notes_query (notes : List Note) (u : User) : List Note :=
  notes.filter (fun n => n.user_id == u.id)

/-- Modelled from the spec: the persistence boundary insert(User) operation.
The username and email columns are declared unique (models.py lines 36-37)
and id is the primary key, so inserting a row that collides with a persisted
row on any of them surfaces a UniquenessViolation; otherwise the row is
appended to the table. -/
def insertUser (db : List User) (u : User) : Except PyError (List User) :=
  if db.any (fun v => v.username == u.username || v.email == u.email || v.id == u.id)
  then .error .uniquenessViolation
  else .ok (db ++ [u])

/-- Reachable states of the persisted User table: empty at the start, grown
by successful inserts, shrunk by account deletions. -/
inductive ReachableUsers : List User → Prop where
  | empty : ReachableUsers []
  | insert (db : List User) (u : User) (db' : List User) :
      ReachableUsers db → insertUser db u = .ok db' → ReachableUsers db'
  | delete (db : List User) (p : User → Bool) :
      ReachableUsers db → ReachableUsers (db.filter p)

/-- Modelled from the spec: the persistence boundary insert(NoteTags)
operation. The pair of note_id and tag_id is the composite primary key
(models.py lines 150-151), so inserting a row whose pair collides with a
persisted row surfaces a UniquenessViolation; otherwise the row is appended. -/
def insertNoteTag (assoc : List NoteTags) (r : NoteTags) : Except PyError (List NoteTags) :=
  if assoc.any (fun s => s.note_id == r.note_id && s.tag_id == r.tag_id)
  then .error .uniquenessViolation
  else .ok (assoc ++ [r])

/-- Reachable states of the persisted NoteTags table: empty at the start,
grown by successful inserts, shrunk by detachments and cascading deletes. -/
inductive ReachableNoteTags : List NoteTags → Prop where
  | empty : ReachableNoteTags []
  | insert (assoc : List NoteTags) (r : NoteTags) (assoc' : List NoteTags) :
      ReachableNoteTags assoc → insertNoteTag assoc r = .ok assoc' →
      ReachableNoteTags assoc'
  | delete (assoc : List NoteTags) (p : NoteTags → Bool) :
      ReachableNoteTags assoc → ReachableNoteTags (assoc.filter p)

/-- Reachable states of a single Note row: created on submission, then
edited any number of times; the monotone-clock hypothesis says the UTC time
an edit reads is no earlier than the time already stored in last_edited. -/
inductive ReachableNote : Note → Prop where
  | create (id user_id : Nat) (title body : String) (now : Nat) :
      ReachableNote (Note.create id user_id title body now)
  | edit (n : Note) (title body : String) (now : Nat) :
      ReachableNote n → n.last_edited ≤ now →
      ReachableNote (n.edit title body now)

/-! Helper lemmas about the character encoding underlying the modelled
password digest. -/

/-- Every character digit of the positional encoding is nonzero and below
the base. -/
theorem char_add_one_lt (c : Char) : c.toNat + 1 < charBase := by
  have h : c.val.toNat.isValidChar := c.valid
  have e : c.toNat = c.val.toNat := rfl
  unfold charBase
  rcases h with h | ⟨h1, h2⟩ <;> omega

/-- The positional encoding of character lists is injective. -/
theorem encodeChars_inj : ∀ l₁ l₂ : List Char, encodeChars l₁ = encodeChars l₂ → l₁ = l₂ := by
  intro l₁
  induction l₁ with
  | nil =>
    intro l₂ h
    cases l₂ with
    | nil => rfl
    | cons d ds =>
      exfalso
      simp only [encodeChars, charBase] at h
      omega
  | cons c cs ih =>
    intro l₂ h
    cases l₂ with
    | nil =>
      exfalso
      simp only [encodeChars, charBase] at h
      omega
    | cons d ds =>
      simp only [encodeChars, charBase] at h
      have hc := char_add_one_lt c
      have hd := char_add_one_lt d
      simp only [charBase] at hc hd
      have h1 : c.toNat = d.toNat := by omega
      have h2 : encodeChars cs = encodeChars ds := by omega
      have hcd : c = d := by
        have hco := Char.ofNat_toNat c
        rw [h1, Char.ofNat_toNat d] at hco
        exact hco.symm
      rw [hcd, ih ds h2]

/-- The string encoding used as the digest core is injective. -/
theorem stringEncode_inj (s t : String) (h : stringEncode s = stringEncode t) : s = t := by
  cases s with
  | mk ds =>
    cases t with
    | mk dt =>
      exact congrArg String.mk (encodeChars_inj ds dt h)

/-- C1: the spec requires load_user to tolerate a non-integer id by signaling
a ValueParsing error that does not propagate as an unhandled fault; the code
passes id to int() unguarded, so on the input abc the ValueError escapes
load_user itself (rendered here as the error result of the embedding), and
the framework contract the loader serves expects a null return, not a raised
error. This theorem evaluates the embedded loader at the failing input. -/
theorem load_user_abc_raises : load_user [] "abc" = .error .valueError := rfl

/-- C2: for a string id parsing to an integer n, load_user returns the
not-found signal none when no persisted User carries primary key n, and
returns exactly the persisted User carrying primary key n when one does
(primary keys are unique across persisted rows). -/
theorem load_user_get (db : List User) (ids : String) (n : Int)
    (hparse : pyInt ids = some n)
    (hnodup : (db.map User.id).Nodup) :
    ((∀ u ∈ db, (u.id : Int) ≠ n) → load_user db ids = .ok none) ∧
    (∀ u ∈ db, (u.id : Int) = n → load_user db ids = .ok (some u)) := by
  constructor
  · intro hno
    have hq : queryGetUser db n = none := by
      simp only [queryGetUser, List.find?_eq_none]
      intro u hu
      simpa using hno u hu
    simp [load_user, hparse, hq]
  · intro u hu hid
    obtain ⟨v, hv⟩ : ∃ v, db.find? (fun w => (w.id : Int) == n) = some v := by
      rw [← Option.isSome_iff_exists, List.find?_isSome]
      exact ⟨u, hu, by simpa using hid⟩
    have hvp := List.find?_some hv
    have hvm : v ∈ db := List.mem_of_find?_eq_some hv
    have hvu : v = u := by
      apply List.inj_on_of_nodup_map hnodup hvm hu
      have hvn : (v.id : Int) = n := by simpa using hvp
      have h2 : (v.id : Int) = (u.id : Int) := by rw [hvn, hid]
      exact_mod_cast h2
    simp only [load_user, hparse, queryGetUser, hv, hvu]

/-- Witness for C2 at a concrete table: id 2 is absent and resolves to none,
id 1 is present and resolves to its row. -/
theorem load_user_get_witness :
    load_user [User.create 1 "alice" "a@x" 0] "2" = .ok none ∧
    load_user [User.create 1 "alice" "a@x" 0] "1" = .ok (some (User.create 1 "alice" "a@x" 0)) :=
  ⟨(load_user_get [User.create 1 "alice" "a@x" 0] "2" 2 (by decide) (by decide)).1 (by decide),
   (load_user_get [User.create 1 "alice" "a@x" 0] "1" 1 (by decide) (by decide)).2
     (User.create 1 "alice" "a@x" 0) (by decide) (by decide)⟩

/-- C3: immediately after set_password with plaintext p, check_password
returns true on p and false on every plaintext distinct from p (the modelled
digest is collision-free, the idealization of the hashing library). -/
theorem set_password_check_password (u : User) (salt : Nat) (p p' : String)
    (hne : p' ≠ p) :
    ((u.set_password salt p).check_password p = .ok true) ∧
    ((u.set_password salt p).check_password p' = .ok false) := by
  constructor
  · simp [User.check_password, User.set_password, check_password_hash,
      generate_password_hash]
  · have hd : ((generate_password_hash salt p).digest ==
        (generate_password_hash salt p').digest) = false := by
      rw [beq_eq_false_iff_ne]
      intro hcontra
      apply hne
      apply stringEncode_inj
      simp only [generate_password_hash] at hcontra
      have h2 := Nat.eq_of_mul_eq_mul_left (Nat.succ_pos salt) hcontra
      omega
    simp only [User.check_password, User.set_password, check_password_hash]
    rw [show (generate_password_hash salt p).salt = salt from rfl, hd]

/-- Witness for C3 at a concrete user, salt and pair of plaintexts. -/
theorem set_password_check_password_witness :
    (((User.create 1 "alice" "a@x" 0).set_password 7 "pw1").check_password "pw1" = .ok true) ∧
    (((User.create 1 "alice" "a@x" 0).set_password 7 "pw1").check_password "pw2" = .ok false) :=
  set_password_check_password (User.create 1 "alice" "a@x" 0) 7 "pw1" "pw2" (by decide)

/-- C4: set_password is non-deterministic across calls: the hashing library
draws a fresh random salt at each call (modelled by the explicit salt
argument), so two calls with the same plaintext under distinct salt draws
store different password_hash values, and the stored hash is not a function
of the plaintext alone. -/
theorem set_password_salting (u : User) (p : String) (s₁ s₂ : Nat) (hs : s₁ ≠ s₂) :
    (u.set_password s₁ p).password_hash ≠ (u.set_password s₂ p).password_hash := by
  intro hcontra
  apply hs
  have h1 := congrArg (fun o : Option PasswordHash => (o.getD ⟨0, 0⟩).salt) hcontra
  simpa [User.set_password, generate_password_hash] using h1

/-- Witness for C4 at a concrete user, plaintext and salt pair. -/
theorem set_password_salting_witness :
    ((User.create 1 "alice" "a@x" 0).set_password 0 "pw").password_hash ≠
    ((User.create 1 "alice" "a@x" 0).set_password 1 "pw").password_hash :=
  set_password_salting (User.create 1 "alice" "a@x" 0) "pw" 0 1 (by decide)

/-- A successful User insert appends the row and certifies that no persisted
row collides with it on username, email or primary key. -/
theorem insertUser_ok (db : List User) (u : User) (db' : List User)
    (h : insertUser db u = .ok db') :
    db' = db ++ [u] ∧
    ∀ v ∈ db, v.username ≠ u.username ∧ v.email ≠ u.email ∧ v.id ≠ u.id := by
  unfold insertUser at h
  split at h
  · cases h
  · rename_i hc
    refine ⟨(Except.ok.inj h).symm, ?_⟩
    intro v hv
    have hp : ¬(v.username == u.username || v.email == u.email || v.id == u.id) = true := by
      intro hp
      exact hc (List.any_eq_true.mpr ⟨v, hv, hp⟩)
    have hp' : (¬v.username = u.username ∧ ¬v.email = u.email) ∧ ¬v.id = u.id := by
      simpa using hp
    exact ⟨hp'.1.1, hp'.1.2, hp'.2⟩

/-- In every reachable persisted User table, usernames and emails are
pairwise distinct. -/
theorem reachableUsers_unique (db : List User) (h : ReachableUsers db) :
    db.Pairwise (fun a b => a.username ≠ b.username ∧ a.email ≠ b.email) := by
  induction h with
  | empty => exact List.Pairwise.nil
  | insert db u db' hr hok ih =>
    obtain ⟨rfl, hno⟩ := insertUser_ok db u db' hok
    rw [List.pairwise_append]
    refine ⟨ih, List.pairwise_singleton _ _, ?_⟩
    intro a ha b hb
    have hb' : b = u := by simpa using hb
    subst hb'
    exact ⟨(hno a ha).1, (hno a ha).2.1⟩
  | delete db p hr ih =>
    exact List.Pairwise.sublist (List.filter_sublist db) ih

/-- C5: inserting a User that shares a username or an email with a persisted
User fails with a UniquenessViolation at the persistence boundary, and in
every reachable persisted state usernames and emails are globally unique
across Users. -/
theorem user_uniqueness (db : List User) (h : ReachableUsers db) :
    (∀ u v, v ∈ db → (v.username = u.username ∨ v.email = u.email) →
      insertUser db u = .error .uniquenessViolation) ∧
    db.Pairwise (fun a b => a.username ≠ b.username ∧ a.email ≠ b.email) := by
  refine ⟨?_, reachableUsers_unique db h⟩
  intro u v hv hcol
  have hc : db.any (fun w => w.username == u.username || w.email == u.email || w.id == u.id) = true := by
    refine List.any_eq_true.mpr ⟨v, hv, ?_⟩
    rcases hcol with hcu | hce
    · simp [hcu]
    · simp [hce]
  simp [insertUser, hc]

/-- Witness for C5: a second user with the username alice is rejected, and
the one-row reachable table is duplicate-free. -/
theorem user_uniqueness_witness :
    insertUser [User.create 1 "alice" "a@x" 0] (User.create 2 "alice" "b@x" 1) =
      .error .uniquenessViolation ∧
    [User.create 1 "alice" "a@x" 0].Pairwise
      (fun a b => a.username ≠ b.username ∧ a.email ≠ b.email) :=
  ⟨(user_uniqueness [User.create 1 "alice" "a@x" 0]
      (ReachableUsers.insert [] (User.create 1 "alice" "a@x" 0)
        [User.create 1 "alice" "a@x" 0] ReachableUsers.empty rfl)).1
      (User.create 2 "alice" "b@x" 1) (User.create 1 "alice" "a@x" 0)
      (by decide) (Or.inl (by decide)),
   (user_uniqueness [User.create 1 "alice" "a@x" 0]
      (ReachableUsers.insert [] (User.create 1 "alice" "a@x" 0)
        [User.create 1 "alice" "a@x" 0] ReachableUsers.empty rfl)).2⟩

/-- C6: in every reachable Note state last_edited is at least note_date, and
an edit under a monotone clock never decreases last_edited, leaving it equal
exactly when the clock reading collides with the stored value. -/
theorem note_last_edited (n : Note) (h : ReachableNote n) :
    n.note_date ≤ n.last_edited ∧
    ∀ title body now, n.last_edited ≤ now →
      (n.last_edited ≤ (n.edit title body now).last_edited ∧
       ((n.edit title body now).last_edited = n.last_edited ↔ now = n.last_edited)) := by
  constructor
  · induction h with
    | create id user_id title body now => simp [Note.create]
    | edit m title body now hr hc ih =>
      simp only [Note.edit]
      exact le_trans ih hc
  · intro title body now hc
    constructor
    · simpa [Note.edit] using hc
    · simp [Note.edit]

/-- Witness for C6 at a concrete note created at time 5 and edited at
time 9. -/
theorem note_last_edited_witness :
    (Note.create 1 1 "t" "b" 5).note_date ≤ (Note.create 1 1 "t" "b" 5).last_edited ∧
    ((Note.create 1 1 "t" "b" 5).last_edited ≤
        ((Note.create 1 1 "t" "b" 5).edit "t2" "b2" 9).last_edited ∧
      (((Note.create 1 1 "t" "b" 5).edit "t2" "b2" 9).last_edited =
          (Note.create 1 1 "t" "b" 5).last_edited ↔
        9 = (Note.create 1 1 "t" "b" 5).last_edited)) :=
  ⟨(note_last_edited (Note.create 1 1 "t" "b" 5) (ReachableNote.create 1 1 "t" "b" 5)).1,
   (note_last_edited (Note.create 1 1 "t" "b" 5) (ReachableNote.create 1 1 "t" "b" 5)).2
     "t2" "b2" 9 (by decide)⟩

/-- C7 counterexample: the claim states the debug labels are exactly
User: username and Note: body, but the format strings in the source wrap
them in angle brackets, so a concrete user and note refute it. -/
theorem repr_not_bare_label :
    User.repr (User.create 1 "bob" "b@x" 0) ≠ "User: bob" ∧
    Note.reprN (Note.create 1 1 "t" "hello" 0) ≠ "Note: hello" := by
  constructor <;> decide

/-- C7 amended: the debug-representation of a User is the angle-bracketed
label with its username substituted, and that of a Note is the
angle-bracketed label with its body substituted. -/
theorem repr_formats (u : User) (n : Note) :
    User.repr u = "<User: " ++ u.username ++ ">" ∧
    Note.reprN n = "<Note: " ++ n.note ++ ">" :=
  ⟨rfl, rfl⟩

/-- A successful NoteTags insert appends the row and certifies that no
persisted row carries the same composite primary key. -/
theorem insertNoteTag_ok (assoc : List NoteTags) (r : NoteTags) (assoc' : List NoteTags)
    (h : insertNoteTag assoc r = .ok assoc') :
    assoc' = assoc ++ [r] ∧
    ∀ s ∈ assoc, ¬(s.note_id = r.note_id ∧ s.tag_id = r.tag_id) := by
  unfold insertNoteTag at h
  split at h
  · cases h
  · rename_i hc
    refine ⟨(Except.ok.inj h).symm, ?_⟩
    intro s hs
    have hp : ¬(s.note_id == r.note_id && s.tag_id == r.tag_id) = true := by
      intro hp
      exact hc (List.any_eq_true.mpr ⟨s, hs, hp⟩)
    simpa using hp

/-- C8: in every reachable persisted NoteTags table the rows, which are
exactly the composite primary key pairs, are pairwise distinct, and
attaching an already-present pair again fails instead of creating a second
row. -/
theorem noteTags_no_duplicates (assoc : List NoteTags) (h : ReachableNoteTags assoc) :
    assoc.Nodup ∧
    ∀ r ∈ assoc, insertNoteTag assoc r = .error .uniquenessViolation := by
  constructor
  · induction h with
    | empty => exact List.nodup_nil
    | insert assoc r assoc' hr hok ih =>
      obtain ⟨rfl, hno⟩ := insertNoteTag_ok assoc r assoc' hok
      rw [List.nodup_append]
      refine ⟨ih, List.nodup_singleton _, ?_⟩
      intro s hs hmem
      have hsr : s = r := by simpa using hmem
      subst hsr
      exact hno s hs ⟨rfl, rfl⟩
    | delete assoc p hr ih =>
      exact List.Nodup.sublist (List.filter_sublist assoc) ih
  · intro r hr
    have hc : assoc.any (fun s => s.note_id == r.note_id && s.tag_id == r.tag_id) = true :=
      List.any_eq_true.mpr ⟨r, hr, by simp⟩
    simp [insertNoteTag, hc]

/-- Witness for C8: the one-row reachable association table is duplicate-free
and re-attaching its pair fails. -/
theorem noteTags_no_duplicates_witness :
    ([⟨1, 1⟩] : List NoteTags).Nodup ∧
    insertNoteTag [⟨1, 1⟩] ⟨1, 1⟩ = .error .uniquenessViolation :=
  ⟨(noteTags_no_duplicates [⟨1, 1⟩]
      (ReachableNoteTags.insert [] ⟨1, 1⟩ [⟨1, 1⟩] ReachableNoteTags.empty rfl)).1,
   (noteTags_no_duplicates [⟨1, 1⟩]
      (ReachableNoteTags.insert [] ⟨1, 1⟩ [⟨1, 1⟩] ReachableNoteTags.empty rfl)).2
     ⟨1, 1⟩ (by decide)⟩

/-- C9: the user_notes relationship is declared with the dynamic loading
strategy, the query-valued lazily materialized option, and the query it
stands for returns exactly the notes owned by the user, in the insertion
order of the note table (its result is an order-preserving sublist of the
table). -/
theorem user_notes_lazy_ordered (notes : List Note) (u : User) :
    user_notes_decl.lazy = LazyStrategy.dynamic ∧
    List.Sublist (user_notes_query notes u) notes ∧
    (∀ n ∈ user_notes_query notes u, n.user_id = u.id) ∧
    (∀ n ∈ notes, n.user_id = u.id → n ∈ user_notes_query notes u) := by
  refine ⟨rfl, List.filter_sublist notes, ?_, ?_⟩
  · intro n hn
    have := (List.mem_filter.mp hn).2
    simpa using this
  · intro n hn hu
    exact List.mem_filter.mpr ⟨hn, by simpa using hu⟩

/-- Witness for C9 at a concrete two-user note table. -/
theorem user_notes_lazy_ordered_witness :
    user_notes_decl.lazy = LazyStrategy.dynamic ∧
    List.Sublist
      (user_notes_query [Note.create 1 1 "a" "a" 0, Note.create 2 2 "b" "b" 0]
        (User.create 1 "alice" "a@x" 0))
      [Note.create 1 1 "a" "a" 0, Note.create 2 2 "b" "b" 0] ∧
    Note.create 1 1 "a" "a" 0 ∈
      user_notes_query [Note.create 1 1 "a" "a" 0, Note.create 2 2 "b" "b" 0]
        (User.create 1 "alice" "a@x" 0) :=
  ⟨(user_notes_lazy_ordered [Note.create 1 1 "a" "a" 0, Note.create 2 2 "b" "b" 0]
      (User.create 1 "alice" "a@x" 0)).1,
   (user_notes_lazy_ordered [Note.create 1 1 "a" "a" 0, Note.create 2 2 "b" "b" 0]
      (User.create 1 "alice" "a@x" 0)).2.1,
   (user_notes_lazy_ordered [Note.create 1 1 "a" "a" 0, Note.create 2 2 "b" "b" 0]
      (User.create 1 "alice" "a@x" 0)).2.2.2 (Note.create 1 1 "a" "a" 0)
     (by decide) (by decide)⟩

/-- C10: a User whose password has never been set carries a null
password_hash, and check_password on any plaintext then yields an error,
the hashing library failing to parse the null stored hash, rather than
returning false: authentication before set_password fails by error. -/
theorem check_password_unset (u : User) (p : String) (h : u.password_hash = none) :
    u.check_password p = .error .noneTypeError := by
  simp [User.check_password, h, check_password_hash]

/-- Witness for C10: a freshly created user has a null hash and
check_password errors on it. -/
theorem check_password_unset_witness :
    (User.create 1 "alice" "a@x" 0).check_password "pw" = .error .noneTypeError :=
  check_password_unset (User.create 1 "alice" "a@x" 0) "pw" rfl

end App
